import Mathlib

/-!
Verification of the pip cache extractor core (`pip_cache_extractor.py`).

The embedding models:
* `is_cachecontrol_v4`        — the 5-byte signature gate;
* the header-parsing and body-reading logic of `CacheExtractorApp.extract_file`
  (signature check, layout-indicator dispatch at offset 0x15, big-endian
  length field, body read);
* `CacheExtractorApp.detect_file_type` — magic-number and metadata sniffing;
* `reconstruct_whl_filename`  — wheel-name reconstruction from a zip archive.

Files and bodies are byte lists (`List Nat`, each entry < 256 in practice);
Python text is `String` (Lean 4.14 `String` is a list of chars).  Fallible
Python paths (exceptions) are rendered with `Option`/`Except`.
-/

deriving instance DecidableEq for Except

set_option maxRecDepth 16384
set_option maxHeartbeats 1000000

namespace PipCache

/-- ASCII bytes of a (pure-ASCII) string, used to write byte literals. -/
def strBytes (s : String) : List Nat := s.data.map Char.toNat

/-- Big-endian interpretation of a byte list, as in `struct.unpack(">H"/" >I")`. -/
def beNat (bs : List Nat) : Nat := bs.foldl (fun a b => 256 * a + b) 0

/-- The 5-byte cache envelope signature `b"cc=4,"`. -/
def ccSig : List Nat := strBytes "cc=4,"

/-- The 4-byte prefix `b"cc=4"` re-checked inside `extract_file`. -/
def ccGate : List Nat := strBytes "cc=4"

/-- `is_cachecontrol_v4`: `f.read(5) == b"cc=4,"`; any I/O exception yields
`False`.  An unreadable source is modelled as `none`. -/
def is_cachecontrol_v4 (src : Option (List Nat)) : Bool :=
  match src with
  | none => false
  | some bs => bs.take 5 == ccSig

/-- Parsed record header: layout indicator byte, body length, body offset. -/
structure RecordHeader where
  layout_indicator : Nat
  body_length : Nat
  body_offset : Nat
deriving DecidableEq, Repr

/-- Failure modes of the header-parsing step of `extract_file`:
`header[0x15]` raising `IndexError`, `struct.unpack` raising on a short
read, or the `else` branch for an unrecognized indicator byte. -/
inductive ParseErr where
  | indexError : ParseErr
  | structError : ParseErr
  | unsupportedLayout : Nat → ParseErr
deriving DecidableEq, Repr

/-- The header-parsing logic of `extract_file` (the `f.read(READ_IN_SIZE)`
window, the indicator dispatch at `header[0x15]`, and the
`f.seek(0x16); struct.unpack` length-field reads). -/
def parseHeader (file : List Nat) : Except ParseErr RecordHeader :=
  let header := file.take 32
  match header.get? 0x15 with
  | none => .error .indexError
  | some indicator =>
    if indicator = 0xC5 then
      let bs := (file.drop 0x16).take 2
      if bs.length < 2 then .error .structError
      else .ok ⟨0xC5, beNat bs, 0x18⟩
    else if indicator = 0xC6 then
      let bs := (file.drop 0x16).take 4
      if bs.length < 4 then .error .structError
      else .ok ⟨0xC6, beNat bs, 0x1A⟩
    else .error (.unsupportedLayout indicator)

/-- The body read of `extract_file`: `f.seek(body_offset); f.read(body_length)`.
Python's `read` silently returns fewer bytes at end of file. -/
def readBody (file : List Nat) (h : RecordHeader) : List Nat :=
  (file.drop h.body_offset).take h.body_length

/-- The byte-level pipeline of `extract_file`: the `header.startswith(b"cc=4")`
gate, header parsing, then the body read; every failure path returns `None`. -/
def extract_file (file : List Nat) : Option (List Nat) :=
  if ccGate.isPrefixOf file then
    match parseHeader file with
    | .ok h => some (readBody file h)
    | .error _ => none
  else none

/-- The per-record pipeline as driven by the GUI: `load_files` admits a file
into the work list only when `is_cachecontrol_v4` holds, and only admitted
files reach `extract_file`. -/
def process_record (src : Option (List Nat)) : Option (List Nat) :=
  match src with
  | none => none
  | some bs => if is_cachecontrol_v4 (some bs) then extract_file bs else none

/-! ### Window lemmas for byte reads -/

theorem getD_take_32 (l : List Nat) (m : Nat) (hm : m < 32) :
    (l.take 32).get? m = l.get? m := by
  simpa using List.getElem?_take_of_lt (l := l) (n := 32) (m := m) hm

theorem window2 (l : List Nat) (n : Nat) (h : n + 2 ≤ l.length) :
    (l.drop n).take 2 = [l.getD n 0, l.getD (n + 1) 0] := by
  have h1 : n < l.length := by omega
  have h2 : n + 1 < l.length := by omega
  have e : l.drop n = l[n] :: l[n + 1] :: l.drop (n + 2) := by
    rw [List.drop_eq_getElem_cons h1, List.drop_eq_getElem_cons h2]
  rw [e]
  have e2 : List.take 2 (l[n] :: l[n + 1] :: l.drop (n + 2)) = [l[n], l[n + 1]] := rfl
  rw [e2]
  simp [List.getD_eq_getElem?_getD, List.getElem?_eq_getElem, h1, h2]

theorem window4 (l : List Nat) (n : Nat) (h : n + 4 ≤ l.length) :
    (l.drop n).take 4 =
      [l.getD n 0, l.getD (n + 1) 0, l.getD (n + 2) 0, l.getD (n + 3) 0] := by
  have h1 : n < l.length := by omega
  have h2 : n + 1 < l.length := by omega
  have h3 : n + 2 < l.length := by omega
  have h4 : n + 3 < l.length := by omega
  have e : l.drop n = l[n] :: l[n + 1] :: l[n + 2] :: l[n + 3] :: l.drop (n + 4) := by
    rw [List.drop_eq_getElem_cons h1, List.drop_eq_getElem_cons h2,
      List.drop_eq_getElem_cons h3, List.drop_eq_getElem_cons h4]
  rw [e]
  have e2 : List.take 4 (l[n] :: l[n + 1] :: l[n + 2] :: l[n + 3] :: l.drop (n + 4)) =
      [l[n], l[n + 1], l[n + 2], l[n + 3]] := rfl
  rw [e2]
  simp [List.getD_eq_getElem?_getD, List.getElem?_eq_getElem, h1, h2, h3, h4]

theorem get?_of_le_length (l : List Nat) (m : Nat) (h : m < l.length) :
    l.get? m = some (l.getD m 0) := by
  simp [List.getD_eq_getElem?_getD, List.getElem?_eq_getElem, h]

theorem indicator_lookup (file : List Nat) (h : 0x15 < file.length) :
    (file.take 32).get? 0x15 = some (file.getD 0x15 0) := by
  rw [getD_take_32 _ _ (by omega), get?_of_le_length _ _ h]

/-! ### Claim theorems: header parsing and body extraction -/

/-- Concrete 32-byte record: signature, zero padding, indicator `0xC5`,
length field `0x0102`, eight body bytes. -/
def record32 : List Nat := ccSig ++ List.replicate 16 0 ++ [0xC5, 1, 2] ++ List.replicate 8 7

/-- Record truncated mid-body: the length field claims 4 bytes but only 3
follow the body offset. -/
def truncatedRecord : List Nat := ccSig ++ List.replicate 16 0 ++ [0xC5, 0, 4] ++ [9, 9, 9]

/-- 24-byte record: shorter than the 32-byte read window, yet indicator
`0xC5` and its complete 16-bit length field are present. -/
def shortRecord24 : List Nat := ccSig ++ List.replicate 16 0 ++ [0xC5, 0, 0]

/-- 25-byte record with indicator `0xC6` whose 32-bit length field is cut
off after three of its four bytes. -/
def shortRecordC6 : List Nat := ccSig ++ List.replicate 16 0 ++ [0xC6, 0, 0, 0]

/-- C1: on a full 32-byte header window, indicator `0xC5` at offset 0x15
yields `body_length` = big-endian 16-bit integer at 0x16–0x17 and
`body_offset` = 0x18; indicator `0xC6` yields `body_length` = big-endian
32-bit integer at 0x16–0x19 and `body_offset` = 0x1A; any other indicator
fails with `UnsupportedLayout` and no body is extracted. -/
theorem claim1_header_layout_dispatch (file : List Nat) (h32 : 32 ≤ file.length) :
    (file.getD 0x15 0 = 0xC5 →
      parseHeader file = .ok ⟨0xC5, 0x100 * file.getD 0x16 0 + file.getD 0x17 0, 0x18⟩)
  ∧ (file.getD 0x15 0 = 0xC6 →
      parseHeader file = .ok ⟨0xC6,
        0x1000000 * file.getD 0x16 0 + 0x10000 * file.getD 0x17 0 +
          0x100 * file.getD 0x18 0 + file.getD 0x19 0, 0x1A⟩)
  ∧ (file.getD 0x15 0 ≠ 0xC5 → file.getD 0x15 0 ≠ 0xC6 →
      parseHeader file = .error (.unsupportedLayout (file.getD 0x15 0)) ∧
        extract_file file = none) := by
  have h21 : (0x15 : Nat) < file.length := by omega
  have ha : file[(0x15 : Nat)]? = some file[0x15] := List.getElem?_eq_getElem h21
  have hval : file.getD 0x15 0 = file[0x15] := by
    simp [List.getD_eq_getElem?_getD, ha]
  refine ⟨?_, ?_, ?_⟩
  · intro hc5
    rw [hval] at hc5
    have hw := window2 file 0x16 (by omega)
    simp [parseHeader, ha, hc5, hw, beNat]
    try omega
  · intro hc6
    rw [hval] at hc6
    have hw := window4 file 0x16 (by omega)
    simp [parseHeader, ha, hc6, hw, beNat]
    try omega
  · intro hc5 hc6
    rw [hval] at hc5 hc6
    have hparse : parseHeader file = .error (.unsupportedLayout (file.getD 0x15 0)) := by
      rw [hval]
      simp [parseHeader, ha, hc5, hc6]
    refine ⟨hparse, ?_⟩
    by_cases hg : ccGate.isPrefixOf file <;> simp [extract_file, hg, hparse]

/-- Witness for C1 at a concrete 32-byte record with indicator `0xC5`. -/
theorem claim1_witness :
    32 ≤ record32.length ∧ parseHeader record32 = .ok ⟨0xC5, 258, 0x18⟩ := by
  refine ⟨by decide, ?_⟩
  have h := (claim1_header_layout_dispatch record32 (by decide)).1 (by decide)
  rw [h]
  decide

/-- C2 evaluated at the failing input: the header claims a 4-byte body, the
source holds only 3 bytes past the body offset, and `extract_file`
silently returns the 3-byte buffer instead of failing. -/
theorem claim2_truncated_body_returned :
    parseHeader truncatedRecord = Except.ok ⟨0xC5, 4, 0x18⟩ ∧
    truncatedRecord.length = 0x18 + 3 ∧
    extract_file truncatedRecord = some [9, 9, 9] := by decide

/-- C7 counterexample: a 24-byte source (fewer than 32 bytes) with a
recognized indicator and a complete length field parses successfully
instead of failing with `TruncatedHeader`. -/
theorem claim7_counterexample :
    shortRecord24.length < 32 ∧ parseHeader shortRecord24 = Except.ok ⟨0xC5, 0, 0x18⟩ := by
  decide

/-- C7 amended: header parsing reads at most 32 bytes but does not require
all 32.  On a source shorter than 32 bytes it fails only when the
indicator byte at 0x15 is missing (`IndexError`) or the length field is
incomplete (`struct.error`); with indicator and complete length field
present it succeeds; an unrecognized indicator still fails with
`UnsupportedLayout`. -/
theorem claim7_short_header_parsing (file : List Nat) (h : file.length < 32) :
    (file.length ≤ 0x15 → parseHeader file = .error .indexError)
  ∧ (file.getD 0x15 0 = 0xC5 → 0x18 ≤ file.length →
      parseHeader file = .ok ⟨0xC5, 0x100 * file.getD 0x16 0 + file.getD 0x17 0, 0x18⟩)
  ∧ (0x16 ≤ file.length → file.getD 0x15 0 = 0xC5 → file.length < 0x18 →
      parseHeader file = .error .structError)
  ∧ (file.getD 0x15 0 = 0xC6 → 0x1A ≤ file.length →
      parseHeader file = .ok ⟨0xC6,
        0x1000000 * file.getD 0x16 0 + 0x10000 * file.getD 0x17 0 +
          0x100 * file.getD 0x18 0 + file.getD 0x19 0, 0x1A⟩)
  ∧ (0x16 ≤ file.length → file.getD 0x15 0 = 0xC6 → file.length < 0x1A →
      parseHeader file = .error .structError)
  ∧ (0x16 ≤ file.length → file.getD 0x15 0 ≠ 0xC5 → file.getD 0x15 0 ≠ 0xC6 →
      parseHeader file = .error (.unsupportedLayout (file.getD 0x15 0))) := by
  refine ⟨?_, ?_, ?_, ?_, ?_, ?_⟩
  · intro hlen
    have hnone : file[(0x15 : Nat)]? = none := by
      simp
      omega
    simp [parseHeader, hnone]
  · intro hc5 hlen
    have h21 : (0x15 : Nat) < file.length := by omega
    have ha : file[(0x15 : Nat)]? = some file[0x15] := List.getElem?_eq_getElem h21
    have hval : file.getD 0x15 0 = file[0x15] := by
      simp [List.getD_eq_getElem?_getD, ha]
    rw [hval] at hc5
    have hw := window2 file 0x16 (by omega)
    simp [parseHeader, ha, hc5, hw, beNat]
    try omega
  · intro hlen hc5 hshort
    have h21 : (0x15 : Nat) < file.length := by omega
    have ha : file[(0x15 : Nat)]? = some file[0x15] := List.getElem?_eq_getElem h21
    have hval : file.getD 0x15 0 = file[0x15] := by
      simp [List.getD_eq_getElem?_getD, ha]
    rw [hval] at hc5
    have hlt : file.length - 0x16 < 2 := by omega
    simp [parseHeader, ha, hc5, hlt]
  · intro hc6 hlen
    have h21 : (0x15 : Nat) < file.length := by omega
    have ha : file[(0x15 : Nat)]? = some file[0x15] := List.getElem?_eq_getElem h21
    have hval : file.getD 0x15 0 = file[0x15] := by
      simp [List.getD_eq_getElem?_getD, ha]
    rw [hval] at hc6
    have hw := window4 file 0x16 (by omega)
    simp [parseHeader, ha, hc6, hw, beNat]
    try omega
  · intro hlen hc6 hshort
    have h21 : (0x15 : Nat) < file.length := by omega
    have ha : file[(0x15 : Nat)]? = some file[0x15] := List.getElem?_eq_getElem h21
    have hval : file.getD 0x15 0 = file[0x15] := by
      simp [List.getD_eq_getElem?_getD, ha]
    rw [hval] at hc6
    have hlt : file.length - 0x16 < 4 := by omega
    simp [parseHeader, ha, hc6, hlt]
  · intro hlen hc5 hc6
    have h21 : (0x15 : Nat) < file.length := by omega
    have ha : file[(0x15 : Nat)]? = some file[0x15] := List.getElem?_eq_getElem h21
    have hval : file.getD 0x15 0 = file[0x15] := by
      simp [List.getD_eq_getElem?_getD, ha]
    rw [hval] at hc5 hc6
    rw [hval]
    simp [parseHeader, ha, hc5, hc6]

/-- Witness for the amended C7 at a 25-byte `0xC6` record with a cut-off
length field. -/
theorem claim7_witness : parseHeader shortRecordC6 = .error .structError := by
  exact (claim7_short_header_parsing shortRecordC6 (by decide)).2.2.2.2.1
    (by decide) (by decide) (by decide)

/-! ### Text machinery: strict UTF-8 decoding and Python string primitives -/

/-- Is `n` a UTF-8 continuation byte (`0x80`–`0xBF`)? -/
def contByte (n : Nat) : Bool := decide (0x80 ≤ n) && decide (n < 0xC0)

/-- Strict UTF-8 decoding of a byte list, as performed by Python's
`bytes.decode("utf-8")`: rejects bad continuation bytes, overlong
encodings, surrogates and code points above `0x10FFFF`. -/
def utf8Decode : List Nat → Option (List Char)
  | [] => some []
  | b :: rest =>
    if b < 0x80 then (utf8Decode rest).map (fun cs => Char.ofNat b :: cs)
    else if b < 0xC2 then none
    else if b < 0xE0 then
      match rest with
      | c1 :: r =>
        if contByte c1 then
          (utf8Decode r).map (fun cs => Char.ofNat ((b - 0xC0) * 0x40 + (c1 - 0x80)) :: cs)
        else none
      | [] => none
    else if b < 0xF0 then
      match rest with
      | c1 :: c2 :: r =>
        let lo1 := if b = 0xE0 then 0xA0 else 0x80
        let hi1 := if b = 0xED then 0xA0 else 0xC0
        if decide (lo1 ≤ c1) && decide (c1 < hi1) && contByte c2 then
          (utf8Decode r).map (fun cs =>
            Char.ofNat ((b - 0xE0) * 0x1000 + (c1 - 0x80) * 0x40 + (c2 - 0x80)) :: cs)
        else none
      | _ => none
    else if b < 0xF5 then
      match rest with
      | c1 :: c2 :: c3 :: r =>
        let lo1 := if b = 0xF0 then 0x90 else 0x80
        let hi1 := if b = 0xF4 then 0x90 else 0xC0
        if decide (lo1 ≤ c1) && decide (c1 < hi1) && contByte c2 && contByte c3 then
          (utf8Decode r).map (fun cs =>
            Char.ofNat ((b - 0xF0) * 0x40000 + (c1 - 0x80) * 0x1000 +
              (c2 - 0x80) * 0x40 + (c3 - 0x80)) :: cs)
        else none
      | _ => none
    else none

/-- UTF-8 decoding to a Lean `String` (`None` on a `UnicodeDecodeError`). -/
def utf8DecodeStr (bs : List Nat) : Option String :=
  (utf8Decode bs).map (fun cs => ⟨cs⟩)

/-- Python `str.startswith`. -/
def startsWithStr (s p : String) : Bool := p.data.isPrefixOf s.data

/-- Python `str.endswith`. -/
def endsWithStr (s p : String) : Bool := p.data.isSuffixOf s.data

/-- Characters for which Python's `str.isspace()` holds (the set stripped
by `str.strip()`). -/
def isPySpace (c : Char) : Bool :=
  let n := c.toNat
  (decide (9 ≤ n) && decide (n ≤ 13)) || (decide (28 ≤ n) && decide (n ≤ 32)) ||
    n == 0x85 || n == 0xA0 || n == 0x1680 ||
    (decide (0x2000 ≤ n) && decide (n ≤ 0x200A)) ||
    n == 0x2028 || n == 0x2029 || n == 0x202F || n == 0x205F || n == 0x3000

/-- Python `str.strip()` (no argument): remove leading and trailing
whitespace. -/
def pyStrip (s : String) : String :=
  ⟨((s.data.dropWhile isPySpace).reverse.dropWhile isPySpace).reverse⟩

/-- Line-boundary characters of Python's `str.splitlines()`. -/
def isLineBreak (c : Char) : Bool :=
  let n := c.toNat
  n == 10 || n == 11 || n == 12 || n == 13 || n == 28 || n == 29 || n == 30 ||
    n == 0x85 || n == 0x2028 || n == 0x2029

/-- Worker for `pySplitlines`: `acc` holds the current line reversed. -/
def splitlinesAux (acc : List Char) : List Char → List (List Char)
  | [] => if acc.isEmpty then [] else [acc.reverse]
  | '\r' :: '\n' :: rest => acc.reverse :: splitlinesAux [] rest
  | c :: rest =>
    if isLineBreak c then acc.reverse :: splitlinesAux [] rest
    else splitlinesAux (c :: acc) rest

/-- Python `str.splitlines()`: split at line boundaries (`\r\n` counts as
one boundary); no trailing empty line. -/
def pySplitlines (s : String) : List String :=
  (splitlinesAux [] s.data).map (fun l => ⟨l⟩)

/-- Everything after the first occurrence of `sep`, or `none`. -/
def afterFirst (sep : Char) : List Char → Option (List Char)
  | [] => none
  | c :: cs => if c = sep then some cs else afterFirst sep cs

/-- Python `line.split(":", 1)[1]` for a line known to contain a colon:
the text after the first `:` (empty if there is none). -/
def afterColon (s : String) : String := ⟨(afterFirst ':' s.data).getD []⟩

/-- Worker for `pySplit`: split at non-overlapping occurrences of a
(nonempty) separator, scanning left to right; `acc` holds the current
field reversed.  `fuel` bounds the recursion; every step consumes at
least one input character, so any `fuel` at least the input length makes
the fuel-exhausted fallback unreachable. -/
def splitSeqAux (sep : List Char) : Nat → List Char → List Char → List (List Char)
  | _, acc, [] => [acc.reverse]
  | 0, acc, l => [acc.reverse ++ l]
  | fuel + 1, acc, c :: cs =>
    if sep.isPrefixOf (c :: cs) then
      acc.reverse :: splitSeqAux sep fuel [] (cs.drop (sep.length - 1))
    else splitSeqAux sep fuel (c :: acc) cs

/-- Python `str.split(sep)` for a nonempty separator `sep`. -/
def pySplit (s sep : String) : List String :=
  (splitSeqAux sep.data s.data.length [] s.data).map (fun l => ⟨l⟩)

/-- Python `str.replace(old, new)` for a nonempty `old`
(split on `old`, join with `new`). -/
def pyReplace (s old new : String) : String :=
  String.intercalate new (pySplit s old)

/-- `line.split(sep)[-1]`: the last field of a Python split. -/
def lastField (s sep : String) : String := (pySplit s sep).getLastD ""

/-- The first `n` characters dropped (Python `line[n:]`). -/
def dropChars (n : Nat) (s : String) : String := ⟨s.data.drop n⟩

/-! ### `detect_file_type` -/

/-- Python truthiness of the `name`/`version`/`python_version` variables:
`None` and the empty string are falsy. -/
def truthy : Option String → Bool
  | none => false
  | some s => s != ""

/-- The classifier-line prefix checked by `detect_file_type`. -/
def classifierLine : String := "Classifier: Programming Language :: Python ::"

/-- One step of the metadata scan loop of `detect_file_type`: the
`if/elif` chain updating `name`, `version`, `python_version`. -/
def scanStep (acc : Option String × Option String × Option String) (line : String) :
    Option String × Option String × Option String :=
  if startsWithStr line "Name:" then
    (some (pyStrip (afterColon line)), acc.2.1, acc.2.2)
  else if startsWithStr line "Version:" then
    (acc.1, some (pyStrip (afterColon line)), acc.2.2)
  else if startsWithStr line classifierLine then
    (acc.1, acc.2.1, some (pyStrip (lastField line "::")))
  else acc

/-- The metadata scan loop of `detect_file_type` over the decoded lines. -/
def scanMeta (lines : List String) : Option String × Option String × Option String :=
  lines.foldl scanStep (none, none, none)

/-- The `Metadata-Version` branch of `detect_file_type`: decode as UTF-8
(decode failure is caught and falls through to `.dat`), scan the lines,
then synthesize a filename when name and version are truthy. -/
def parse_metadata (body : List Nat) (default_name : String) : String :=
  match utf8DecodeStr body with
  | none => default_name ++ ".dat"
  | some text =>
    let res := scanMeta (pySplitlines text)
    if truthy res.1 && truthy res.2.1 && truthy res.2.2 then
      res.1.getD "" ++ "-" ++ res.2.1.getD "" ++ "-py" ++ res.2.2.getD "" ++ ".metadata.txt"
    else if truthy res.1 && truthy res.2.1 then
      res.1.getD "" ++ "-" ++ res.2.1.getD "" ++ "-py3-none-any.metadata.txt"
    else default_name ++ ".dat"

/-- Magic prefix `b'PK\x03\x04'`. -/
def pkMagic : List Nat := [0x50, 0x4B, 0x03, 0x04]

/-- Magic prefix `b'\x1f\x8b\x08\x00'`. -/
def gzMagic : List Nat := [0x1F, 0x8B, 0x08, 0x00]

/-- Magic prefix `b'\x1f\x8b\x08\x08'`. -/
def tgzMagic : List Nat := [0x1F, 0x8B, 0x08, 0x08]

/-- Text prefix `b'Metadata-Version'`. -/
def metaMagic : List Nat := strBytes "Metadata-Version"

/-- `CacheExtractorApp.detect_file_type`: classify the body bytes by
magic-number prefixes, then by the `Metadata-Version` text prefix, and
fall back to `.dat`. -/
def detect_file_type (body : List Nat) (default_name : String) : String :=
  if pkMagic.isPrefixOf body then default_name ++ ".whl"
  else if gzMagic.isPrefixOf body then default_name ++ ".gz"
  else if tgzMagic.isPrefixOf body then default_name ++ ".tgz"
  else if metaMagic.isPrefixOf body then parse_metadata body default_name
  else default_name ++ ".dat"

/-! ### Declarative view of the metadata scan -/

/-- The `name` the scan loop ends with: the last `Name:` line, its text
after the first colon, trimmed. -/
def declName (lines : List String) : Option String :=
  ((lines.filter (fun l => startsWithStr l "Name:")).getLast?).map
    (fun l => pyStrip (afterColon l))

/-- The `version` the scan loop ends with. -/
def declVersion (lines : List String) : Option String :=
  ((lines.filter (fun l => startsWithStr l "Version:")).getLast?).map
    (fun l => pyStrip (afterColon l))

/-- The `python_version` tag the scan loop ends with: last classifier
line, the trimmed last `::`-field. -/
def declTag (lines : List String) : Option String :=
  ((lines.filter (fun l => startsWithStr l classifierLine)).getLast?).map
    (fun l => pyStrip (lastField l "::"))

/-! ### Prefix conflict lemmas -/

theorem prefix_head_conflict {α} [BEq α] [LawfulBEq α] {l : List α} {a b : α}
    {p q : List α} (hab : a ≠ b) (hp : (a :: p).isPrefixOf l = true) :
    (b :: q).isPrefixOf l = false := by
  cases l with
  | nil => simp at hp
  | cons c cs =>
    rw [List.isPrefixOf_cons₂] at hp ⊢
    have h1 := (Bool.and_eq_true _ _).mp hp
    have hac : a = c := by simpa using h1.1
    subst hac
    have hba : (b == a) = false := beq_eq_false_iff_ne.mpr (Ne.symm hab)
    rw [hba]
    simp

theorem prefix_same_length_conflict {α} [BEq α] [LawfulBEq α] {l p q : List α}
    (hlen : p.length = q.length) (hne : p ≠ q) (hp : p.isPrefixOf l = true) :
    q.isPrefixOf l = false := by
  by_contra h
  have hq : q.isPrefixOf l = true := by simpa using h
  rw [List.isPrefixOf_iff_prefix] at hp hq
  have hpq := List.prefix_of_prefix_length_le hp hq (le_of_eq hlen)
  exact hne (hpq.eq_of_length hlen)

theorem version_not_name {l : String} (h : startsWithStr l "Version:" = true) :
    startsWithStr l "Name:" = false := by
  have h' : (('V' : Char) :: "ersion:".data).isPrefixOf l.data = true := h
  exact prefix_head_conflict (by decide) h'

theorem classifier_not_name {l : String} (h : startsWithStr l classifierLine = true) :
    startsWithStr l "Name:" = false := by
  have h' : (('C' : Char) :: "lassifier: Programming Language :: Python ::".data).isPrefixOf
      l.data = true := h
  exact prefix_head_conflict (by decide) h'

theorem classifier_not_version {l : String} (h : startsWithStr l classifierLine = true) :
    startsWithStr l "Version:" = false := by
  have h' : (('C' : Char) :: "lassifier: Programming Language :: Python ::".data).isPrefixOf
      l.data = true := h
  exact prefix_head_conflict (by decide) h'

/-! ### The scan loop agrees with the declarative view -/

theorem scanStep_fst (acc : Option String × Option String × Option String) (line : String) :
    (scanStep acc line).1 =
      if startsWithStr line "Name:" then some (pyStrip (afterColon line)) else acc.1 := by
  by_cases h1 : startsWithStr line "Name:" <;>
    by_cases h2 : startsWithStr line "Version:" <;>
    by_cases h3 : startsWithStr line classifierLine <;>
    simp [scanStep, h1, h2, h3]

theorem scanStep_snd (acc : Option String × Option String × Option String) (line : String) :
    (scanStep acc line).2.1 =
      if startsWithStr line "Version:" then some (pyStrip (afterColon line)) else acc.2.1 := by
  by_cases h2 : startsWithStr line "Version:"
  · have h1 := version_not_name h2
    simp [scanStep, h1, h2]
  · by_cases h1 : startsWithStr line "Name:" <;>
      by_cases h3 : startsWithStr line classifierLine <;>
      simp [scanStep, h1, h2, h3]

theorem scanStep_trd (acc : Option String × Option String × Option String) (line : String) :
    (scanStep acc line).2.2 =
      if startsWithStr line classifierLine then some (pyStrip (lastField line "::"))
      else acc.2.2 := by
  by_cases h3 : startsWithStr line classifierLine
  · have h1 := classifier_not_name h3
    have h2 := classifier_not_version h3
    simp [scanStep, h1, h2, h3]
  · by_cases h1 : startsWithStr line "Name:" <;>
      by_cases h2 : startsWithStr line "Version:" <;>
      simp [scanStep, h1, h2, h3]

theorem declName_append (l : List String) (x : String) :
    declName (l ++ [x]) =
      if startsWithStr x "Name:" then some (pyStrip (afterColon x)) else declName l := by
  by_cases h : startsWithStr x "Name:" <;>
    simp [declName, List.filter_append, h, List.getLast?_append]

theorem declVersion_append (l : List String) (x : String) :
    declVersion (l ++ [x]) =
      if startsWithStr x "Version:" then some (pyStrip (afterColon x)) else declVersion l := by
  by_cases h : startsWithStr x "Version:" <;>
    simp [declVersion, List.filter_append, h, List.getLast?_append]

theorem declTag_append (l : List String) (x : String) :
    declTag (l ++ [x]) =
      if startsWithStr x classifierLine then some (pyStrip (lastField x "::"))
      else declTag l := by
  by_cases h : startsWithStr x classifierLine <;>
    simp [declTag, List.filter_append, h, List.getLast?_append]

/-- The imperative scan loop of `detect_file_type` computes exactly the
declarative last-match values. -/
theorem scanMeta_eq (lines : List String) :
    scanMeta lines = (declName lines, declVersion lines, declTag lines) := by
  induction lines using List.reverseRecOn with
  | nil => rfl
  | append_singleton l x ih =>
    have h1 : scanMeta (l ++ [x]) = scanStep (scanMeta l) x := by
      simp [scanMeta, List.foldl_append]
    rw [h1, ih]
    refine Prod.ext ?_ (Prod.ext ?_ ?_)
    · rw [scanStep_fst, declName_append]
    · rw [scanStep_snd, declVersion_append]
    · rw [scanStep_trd, declTag_append]

/-- When the body starts with `Metadata-Version`, no binary magic matches
and `detect_file_type` runs the metadata branch. -/
theorem detect_meta (body : List Nat) (base : String)
    (hmeta : metaMagic.isPrefixOf body = true) :
    detect_file_type body base = parse_metadata body base := by
  have h' : ((0x4D : Nat) :: strBytes "etadata-Version").isPrefixOf body = true := hmeta
  have hpk : pkMagic.isPrefixOf body = false := prefix_head_conflict (by decide) h'
  have hgz : gzMagic.isPrefixOf body = false := prefix_head_conflict (by decide) h'
  have htgz : tgzMagic.isPrefixOf body = false := prefix_head_conflict (by decide) h'
  simp [detect_file_type, hpk, hgz, htgz, hmeta]

/-! ### Claim theorems: classification -/

/-- C3: classification checks the four prefixes in priority order and
yields exactly one result: `PK\x03\x04` → `.whl`, `1F 8B 08 00` → `.gz`,
`1F 8B 08 08` → `.tgz`, `Metadata-Version` → the metadata parse, and
none → `.dat`.  The magic checks and the text check can never both
match, so each rule applies whenever its own condition holds. -/
theorem claim3_classification_priority (body : List Nat) (base : String) :
    (pkMagic.isPrefixOf body = true → detect_file_type body base = base ++ ".whl")
  ∧ (gzMagic.isPrefixOf body = true → detect_file_type body base = base ++ ".gz")
  ∧ (tgzMagic.isPrefixOf body = true → detect_file_type body base = base ++ ".tgz")
  ∧ (metaMagic.isPrefixOf body = true →
      detect_file_type body base = parse_metadata body base)
  ∧ (pkMagic.isPrefixOf body = false → gzMagic.isPrefixOf body = false →
      tgzMagic.isPrefixOf body = false → metaMagic.isPrefixOf body = false →
      detect_file_type body base = base ++ ".dat") := by
  refine ⟨?_, ?_, ?_, ?_, ?_⟩
  · intro h
    simp [detect_file_type, h]
  · intro h
    have h' : ((0x1F : Nat) :: [0x8B, 0x08, 0x00]).isPrefixOf body = true := h
    have hpk : pkMagic.isPrefixOf body = false := prefix_head_conflict (by decide) h'
    simp [detect_file_type, hpk, h]
  · intro h
    have h' : ((0x1F : Nat) :: [0x8B, 0x08, 0x08]).isPrefixOf body = true := h
    have hpk : pkMagic.isPrefixOf body = false := prefix_head_conflict (by decide) h'
    have hgz : gzMagic.isPrefixOf body = false :=
      prefix_same_length_conflict (by decide) (by decide) h
    simp [detect_file_type, hpk, hgz, h]
  · exact detect_meta body base
  · intro h1 h2 h3 h4
    simp [detect_file_type, h1, h2, h3, h4]

/-- Witness for C3 at a concrete gzip-with-filename body. -/
theorem claim3_witness : detect_file_type [0x1F, 0x8B, 0x08, 0x08, 0x01] "x" = "x.tgz" := by
  have h := (claim3_classification_priority [0x1F, 0x8B, 0x08, 0x08, 0x01] "x").2.2.1
    (by decide)
  rw [h]
  decide

/-- The spec's metadata example body, with a Python classifier line. -/
def metadataBody : List Nat :=
  strBytes "Metadata-Version: 2.1\nName: foo\nVersion: 1.0\nClassifier: Programming Language :: Python :: 3.9\n"

/-- The decoded text of `metadataBody`. -/
def metadataText : String :=
  "Metadata-Version: 2.1\nName: foo\nVersion: 1.0\nClassifier: Programming Language :: Python :: 3.9\n"

/-- C4: for a body starting with `Metadata-Version` that decodes as UTF-8,
if the scan finds (truthy) name and version, the filename is
`{name}-{version}-py{tag}.metadata.txt` when a classifier line supplied a
(truthy) tag, else `{name}-{version}-py3-none-any.metadata.txt`; if name
or version is missing, or the body is not valid UTF-8, classification
falls back to base + `.dat`. -/
theorem claim4_metadata_synthesis (body : List Nat) (base : String)
    (hmeta : metaMagic.isPrefixOf body = true) :
    (utf8DecodeStr body = none → detect_file_type body base = base ++ ".dat")
  ∧ (∀ text, utf8DecodeStr body = some text →
      (truthy (declName (pySplitlines text)) = true →
        truthy (declVersion (pySplitlines text)) = true →
        truthy (declTag (pySplitlines text)) = true →
        detect_file_type body base =
          (declName (pySplitlines text)).getD "" ++ "-" ++
            (declVersion (pySplitlines text)).getD "" ++ "-py" ++
            (declTag (pySplitlines text)).getD "" ++ ".metadata.txt")
      ∧ (truthy (declName (pySplitlines text)) = true →
          truthy (declVersion (pySplitlines text)) = true →
          truthy (declTag (pySplitlines text)) = false →
          detect_file_type body base =
            (declName (pySplitlines text)).getD "" ++ "-" ++
              (declVersion (pySplitlines text)).getD "" ++ "-py3-none-any.metadata.txt")
      ∧ (¬(truthy (declName (pySplitlines text)) = true ∧
            truthy (declVersion (pySplitlines text)) = true) →
          detect_file_type body base = base ++ ".dat")) := by
  rw [detect_meta body base hmeta]
  refine ⟨?_, ?_⟩
  · intro hdec
    simp [parse_metadata, hdec]
  · intro text hdec
    refine ⟨?_, ?_, ?_⟩
    · intro hn hv ht
      simp [parse_metadata, hdec, scanMeta_eq, hn, hv, ht]
    · intro hn hv ht
      simp [parse_metadata, hdec, scanMeta_eq, hn, hv, ht]
    · intro hnv
      rcases Bool.eq_false_or_eq_true (truthy (declName (pySplitlines text))) with hn | hn
      · rcases Bool.eq_false_or_eq_true (truthy (declVersion (pySplitlines text))) with hv | hv
        · exact absurd ⟨hn, hv⟩ hnv
        · simp [parse_metadata, hdec, scanMeta_eq, hn, hv]
      · simp [parse_metadata, hdec, scanMeta_eq, hn]

/-- Witness for C4 at the spec's example metadata body. -/
theorem claim4_witness : detect_file_type metadataBody "b" = "foo-1.0-py3.9.metadata.txt" := by
  have h := ((claim4_metadata_synthesis metadataBody "b" (by decide)).2 metadataText
    (by decide)).1 (by decide) (by decide) (by decide)
  rw [h]
  decide

/-! ### `reconstruct_whl_filename` -/

/-- Failure modes of `reconstruct_whl_filename`: the explicit
`FileNotFoundError` when no `.dist-info/WHEEL` entry exists, the
`KeyError` from `archive.open` on a missing member name, and a
`UnicodeDecodeError` from decoding a WHEEL line. -/
inductive ReconErr where
  | noWheelMetadata : ReconErr
  | keyError : ReconErr
  | unicodeError : ReconErr
deriving DecidableEq, Repr

/-- Keep the first occurrence of each element.  Models the construction of
the Python set of dist-info folders; `set.pop()` returns an arbitrary
element, modelled here deterministically as the head of this list (the
theorems below only constrain inputs for which the set is a singleton,
where the choice is immaterial). -/
def dedupFirst (l : List String) : List String :=
  l.foldl (fun acc x => if acc.contains x then acc else acc ++ [x]) []

/-- Python `name.split('/')[0]`: the first path segment. -/
def firstSegment (s : String) : String := ⟨s.data.takeWhile (fun c => c != '/')⟩

/-- `name.endswith('.dist-info/WHEEL')`. -/
def isWheelEntry (n : String) : Bool := endsWithStr n ".dist-info/WHEEL"

/-- The set-comprehension of `reconstruct_whl_filename`:
`{name.split('/')[0] for name in archive.namelist() if name.endswith('.dist-info/WHEEL')}`. -/
def candidateRoots (archive : List (String × List Nat)) : List String :=
  dedupFirst ((archive.map Prod.fst).filterMap
    (fun n => if isWheelEntry n then some (firstSegment n) else none))

/-- `archive.open(name)`: the content of the member with that name, or
`none` (a `KeyError`).  A zip's name table keeps the last entry for a
duplicated name. -/
def lookupEntry (archive : List (String × List Nat)) (name : String) : Option (List Nat) :=
  ((archive.filter (fun e => e.1 == name)).getLast?).map (fun e => e.2)

/-- Worker for `fileLines`: split a byte list into chunks, each ending
just after a separator byte (line iteration over a binary file keeps the
terminator). -/
def splitAfterAux (sep : Nat) (acc : List Nat) : List Nat → List (List Nat)
  | [] => if acc.isEmpty then [] else [acc.reverse]
  | x :: xs =>
    if x = sep then (acc.reverse ++ [x]) :: splitAfterAux sep [] xs
    else splitAfterAux sep (x :: acc) xs

/-- `for line_bytes in wheel_file:` — the lines of a binary file, each
keeping its trailing `\n` (except possibly the last). -/
def fileLines (content : List Nat) : List (List Nat) := splitAfterAux 0x0A [] content

/-- The `Tag:` loop of `reconstruct_whl_filename`: decode each line as
UTF-8, strip it, return on the first stripped line starting with `Tag:`;
falling off the loop returns Python `None`. -/
def findTag (vname : String) : List (List Nat) → Except ReconErr (Option String)
  | [] => .ok none
  | lb :: rest =>
    match utf8DecodeStr lb with
    | none => .error .unicodeError
    | some s =>
      let line := pyStrip s
      if startsWithStr line "Tag:" then
        .ok (some (vname ++ "-" ++ pyStrip (dropChars 4 line) ++ ".whl"))
      else findTag vname rest

/-- `reconstruct_whl_filename`: collect the dist-info candidate roots, pop
one, strip `.dist-info` occurrences from it, open `{folder}/WHEEL`, and
scan its lines for a `Tag:` line. -/
def reconstruct_whl_filename (archive : List (String × List Nat)) :
    Except ReconErr (Option String) :=
  match candidateRoots archive with
  | [] => .error .noWheelMetadata
  | d :: _ =>
    let variable_name := pyReplace d ".dist-info" ""
    match lookupEntry archive (d ++ "/WHEEL") with
    | none => .error .keyError
    | some content => findTag variable_name (fileLines content)

/-- Spec-side (C5's wording): the dist-info directory name with the
`.dist-info` *suffix* stripped — to be compared with the code's
`replace('.dist-info', '')`. -/
def stripDistInfoSuffix (s : String) : String :=
  if endsWithStr s ".dist-info" then ⟨s.data.take (s.data.length - 10)⟩ else s

/-- Declarative first-`Tag:` line of a WHEEL file: among the decoded,
stripped lines, the first one starting with `Tag:`. -/
def declFirstTag (content : List Nat) : Option String :=
  (((fileLines content).filterMap utf8DecodeStr).map pyStrip).find?
    (fun l => startsWithStr l "Tag:")

/-! ### Characterization lemmas for `reconstruct_whl_filename` -/

theorem findTag_eq (vname : String) (lbs : List (List Nat))
    (h : ∀ lb ∈ lbs, (utf8DecodeStr lb).isSome) :
    findTag vname lbs =
      .ok ((((lbs.filterMap utf8DecodeStr).map pyStrip).find?
          (fun l => startsWithStr l "Tag:")).map
        (fun line => vname ++ "-" ++ pyStrip (dropChars 4 line) ++ ".whl")) := by
  induction lbs with
  | nil => rfl
  | cons lb rest ih =>
    have hlb := h lb (by simp)
    obtain ⟨s, hs⟩ := Option.isSome_iff_exists.mp hlb
    have hrest : ∀ x ∈ rest, (utf8DecodeStr x).isSome := fun x hx => h x (by simp [hx])
    by_cases ht : startsWithStr (pyStrip s) "Tag:"
    · simp [findTag, hs, ht]
    · simp [findTag, hs, ht, ih hrest]

theorem dedupFirst_const (d : String) (l : List String) (hne : l ≠ [])
    (hall : ∀ x ∈ l, x = d) : dedupFirst l = [d] := by
  have aux : ∀ m : List String, (∀ x ∈ m, x = d) →
      m.foldl (fun acc x => if acc.contains x then acc else acc ++ [x]) [d] = [d] := by
    intro m
    induction m with
    | nil => intro _; rfl
    | cons y ys ih =>
      intro hm
      have hy : y = d := hm y (by simp)
      subst hy
      have : ([y].contains y) = true := by simp
      simp only [List.foldl_cons, this, if_pos rfl]
      exact ih (fun x hx => hm x (by simp [hx]))
  match l, hne with
  | x :: xs, _ =>
    have hx : x = d := hall x (by simp)
    subst hx
    show (x :: xs).foldl (fun acc y => if acc.contains y then acc else acc ++ [y]) [] = [x]
    have hstep : (if ([] : List String).contains x then ([] : List String)
        else [] ++ [x]) = [x] := by simp
    rw [List.foldl_cons, hstep]
    exact aux xs (fun y hy => hall y (by simp [hy]))

theorem candidateRoots_singleton (archive : List (String × List Nat)) (d : String)
    (hex : ∃ n ∈ archive.map Prod.fst, isWheelEntry n = true)
    (hall : ∀ n ∈ archive.map Prod.fst, isWheelEntry n = true → firstSegment n = d) :
    candidateRoots archive = [d] := by
  apply dedupFirst_const
  · obtain ⟨n, hn, hw⟩ := hex
    intro hnil
    have : firstSegment n ∈ (archive.map Prod.fst).filterMap
        (fun n => if isWheelEntry n then some (firstSegment n) else none) := by
      rw [List.mem_filterMap]
      exact ⟨n, hn, by simp [hw]⟩
    rw [hnil] at this
    simp at this
  · intro x hx
    rw [List.mem_filterMap] at hx
    obtain ⟨n, hn, hfn⟩ := hx
    by_cases hw : isWheelEntry n
    · rw [if_pos hw] at hfn
      rw [← Option.some_inj.mp hfn]
      exact hall n hn hw
    · simp [hw] at hfn

theorem reconstruct_no_wheel (archive : List (String × List Nat))
    (h : ∀ n ∈ archive.map Prod.fst, isWheelEntry n = false) :
    reconstruct_whl_filename archive = .error .noWheelMetadata := by
  have hc : candidateRoots archive = [] := by
    have : (archive.map Prod.fst).filterMap
        (fun n => if isWheelEntry n then some (firstSegment n) else none) = [] := by
      rw [List.filterMap_eq_nil_iff]
      intro n hn
      simp [h n hn]
    simp [candidateRoots, this, dedupFirst]
  simp [reconstruct_whl_filename, hc]

theorem reconstruct_eq (archive : List (String × List Nat)) (d : String) (content : List Nat)
    (hex : ∃ n ∈ archive.map Prod.fst, isWheelEntry n = true)
    (hall : ∀ n ∈ archive.map Prod.fst, isWheelEntry n = true → firstSegment n = d)
    (hlook : lookupEntry archive (d ++ "/WHEEL") = some content)
    (hdec : ∀ lb ∈ fileLines content, (utf8DecodeStr lb).isSome) :
    reconstruct_whl_filename archive =
      .ok ((declFirstTag content).map (fun line =>
        pyReplace d ".dist-info" "" ++ "-" ++ pyStrip (dropChars 4 line) ++ ".whl")) := by
  have hc := candidateRoots_singleton archive d hex hall
  simp only [reconstruct_whl_filename, hc, hlook]
  exact findTag_eq _ _ hdec

theorem reconstruct_key_error (archive : List (String × List Nat)) (d : String)
    (hex : ∃ n ∈ archive.map Prod.fst, isWheelEntry n = true)
    (hall : ∀ n ∈ archive.map Prod.fst, isWheelEntry n = true → firstSegment n = d)
    (hlook : lookupEntry archive (d ++ "/WHEEL") = none) :
    reconstruct_whl_filename archive = .error .keyError := by
  have hc := candidateRoots_singleton archive d hex hall
  simp [reconstruct_whl_filename, hc, hlook]

/-! ### Claim theorems: wheel reconstruction -/

/-- Archive whose dist-info folder name contains `.dist-info` twice and
whose WHEEL file's first `Tag:`-bearing line carries leading whitespace. -/
def wheelArchiveOdd : List (String × List Nat) :=
  [("a.dist-info.dist-info/WHEEL", strBytes " Tag: x\nTag: y\n")]

/-- The spec's wheel-reconstruction example archive. -/
def wheelArchiveGood : List (String × List Nat) :=
  [("pkg-1.0.dist-info/WHEEL", strBytes "Wheel-Version: 1.0\nTag: py3-none-any\n")]

/-- Archive whose WHEEL file has no `Tag:` line. -/
def wheelArchiveNoTag : List (String × List Nat) :=
  [("pkg.dist-info/WHEEL", strBytes "Wheel-Version: 1.0\n")]

/-- Second no-`Tag:` archive, for the amended-C8 witness. -/
def wheelArchiveNoTag2 : List (String × List Nat) :=
  [("pkg2.dist-info/WHEEL", strBytes "Wheel-Version: 1.0\nRoot-Is-Purelib: true\n")]

/-- Archive whose only `.dist-info/WHEEL` entry is nested below `sub/`,
and which also happens to contain a `sub/WHEEL` member. -/
def nestedArchive : List (String × List Nat) :=
  [("sub/pkg-1.0.dist-info/WHEEL", []), ("sub/WHEEL", strBytes "Tag: py3-none-any\n")]

/-- Nested archive without a `{first segment}/WHEEL` member. -/
def nestedArchive2 : List (String × List Nat) :=
  [("sub2/pkg.dist-info/WHEEL", strBytes "Tag: x\n")]

/-- C5 counterexample: the code strips *every* occurrence of `.dist-info`
(not just a suffix) and matches `Tag:` against *stripped* lines, so on
this archive it returns `a-x.whl`, while the claim's reading
(suffix-stripped directory name, first line literally starting `Tag:`,
i.e. the second line, tag `y`) predicts `a.dist-info-y.whl`. -/
theorem claim5_counterexample :
    reconstruct_whl_filename wheelArchiveOdd = .ok (some "a-x.whl") ∧
    stripDistInfoSuffix "a.dist-info.dist-info" = "a.dist-info" ∧
    ((fileLines (strBytes " Tag: x\nTag: y\n")).filterMap utf8DecodeStr).find?
      (fun l => startsWithStr l "Tag:") = some "Tag: y\n" ∧
    stripDistInfoSuffix "a.dist-info.dist-info" ++ "-" ++
      pyStrip (dropChars 4 "Tag: y\n") ++ ".whl" = "a.dist-info-y.whl" ∧
    "a-x.whl" ≠ "a.dist-info-y.whl" := by decide

/-- C5 amended: when no entry ends in `.dist-info/WHEEL`, reconstruction
fails (`FileNotFoundError`, i.e. `NoWheelMetadata`); when all such
entries share the candidate root `d` and `{d}/WHEEL` is a member whose
lines decode as UTF-8, the result is `{n}-{tag}.whl`, where `n` is `d`
with *every* occurrence of `.dist-info` removed and `tag` is the trimmed
remainder of the first line that, after trimming, starts with `Tag:`
(`None` when there is no such line). -/
theorem claim5_wheel_reconstruction (archive : List (String × List Nat)) (d : String)
    (content : List Nat) :
    ((∀ n ∈ archive.map Prod.fst, isWheelEntry n = false) →
      reconstruct_whl_filename archive = .error .noWheelMetadata)
  ∧ ((∃ n ∈ archive.map Prod.fst, isWheelEntry n = true) →
     (∀ n ∈ archive.map Prod.fst, isWheelEntry n = true → firstSegment n = d) →
     lookupEntry archive (d ++ "/WHEEL") = some content →
     (∀ lb ∈ fileLines content, (utf8DecodeStr lb).isSome) →
     reconstruct_whl_filename archive =
       .ok ((declFirstTag content).map (fun line =>
         pyReplace d ".dist-info" "" ++ "-" ++ pyStrip (dropChars 4 line) ++ ".whl"))) :=
  ⟨reconstruct_no_wheel archive, reconstruct_eq archive d content⟩

/-- Witness for the amended C5 at the spec's example archive:
`pkg-1.0.dist-info/WHEEL` with a `Tag: py3-none-any` line reconstructs
to `pkg-1.0-py3-none-any.whl`. -/
theorem claim5_witness :
    reconstruct_whl_filename wheelArchiveGood = .ok (some "pkg-1.0-py3-none-any.whl") := by
  have h := (claim5_wheel_reconstruction wheelArchiveGood "pkg-1.0.dist-info"
      (strBytes "Wheel-Version: 1.0\nTag: py3-none-any\n")).2
    (by decide) (by decide) (by decide) (by decide)
  rw [h]
  decide

/-- C8 counterexample: an archive with a `.dist-info/WHEEL` entry but no
`Tag:` line makes `reconstruct_whl_filename` return the success value
`None` (an absent result) — precisely what the claim says it must not
do — rather than a distinguished `MissingTagField` failure. -/
theorem claim8_counterexample :
    reconstruct_whl_filename wheelArchiveNoTag = .ok none := by decide

/-- C8 amended: with a `.dist-info/WHEEL` entry present, all WHEEL lines
UTF-8-decodable, and no stripped line starting with `Tag:`, the function
falls off its loop and returns Python `None` inside a normal return; the
caller's `if reconstructed_name:` treats this as keep-the-sniffed-name. -/
theorem claim8_no_tag_returns_none (archive : List (String × List Nat)) (d : String)
    (content : List Nat)
    (hex : ∃ n ∈ archive.map Prod.fst, isWheelEntry n = true)
    (hall : ∀ n ∈ archive.map Prod.fst, isWheelEntry n = true → firstSegment n = d)
    (hlook : lookupEntry archive (d ++ "/WHEEL") = some content)
    (hdec : ∀ lb ∈ fileLines content, (utf8DecodeStr lb).isSome)
    (htag : declFirstTag content = none) :
    reconstruct_whl_filename archive = .ok none := by
  rw [reconstruct_eq archive d content hex hall hlook hdec, htag]
  rfl

/-- Witness for the amended C8. -/
theorem claim8_witness : reconstruct_whl_filename wheelArchiveNoTag2 = .ok none :=
  claim8_no_tag_returns_none wheelArchiveNoTag2 "pkg2.dist-info"
    (strBytes "Wheel-Version: 1.0\nRoot-Is-Purelib: true\n")
    (by decide) (by decide) (by decide) (by decide) (by decide)

/-- C10 counterexample: in this archive every `.dist-info/WHEEL` entry is
nested below `sub/`, yet reconstruction raises no failure — the archive
also holds a `sub/WHEEL` member, which the code happily opens, returning
`sub-py3-none-any.whl`. -/
theorem claim10_counterexample :
    (nestedArchive.map Prod.fst).filter (fun n => isWheelEntry n) =
      ["sub/pkg-1.0.dist-info/WHEEL"] ∧
    reconstruct_whl_filename nestedArchive = .ok (some "sub-py3-none-any.whl") := by decide

/-- C10 amended: when the `.dist-info/WHEEL` entries all share first path
segment `d` and are nested (none is itself `{d}/WHEEL`), and the archive
has *no* member named `{d}/WHEEL`, the code's attempt to open
`{d}/WHEEL` raises the entry-not-found `KeyError` instead of returning a
filename or reporting missing wheel metadata. -/
theorem claim10_nested_dist_info (archive : List (String × List Nat)) (d : String)
    (hex : ∃ n ∈ archive.map Prod.fst, isWheelEntry n = true)
    (hall : ∀ n ∈ archive.map Prod.fst, isWheelEntry n = true → firstSegment n = d)
    (_hnest : ∀ n ∈ archive.map Prod.fst, isWheelEntry n = true →
      firstSegment n ++ "/WHEEL" ≠ n)
    (hlook : lookupEntry archive (d ++ "/WHEEL") = none) :
    reconstruct_whl_filename archive = .error .keyError :=
  reconstruct_key_error archive d hex hall hlook

/-- Witness for the amended C10. -/
theorem claim10_witness : reconstruct_whl_filename nestedArchive2 = .error .keyError :=
  claim10_nested_dist_info nestedArchive2 "sub2"
    (by decide) (by decide) (by decide) (by decide)

/-! ### Claim theorems: signature gate and base names -/

/-- C6: `is_cachecontrol_v4` returns true iff the first five bytes are
`cc=4,`; an I/O failure yields false; and a file whose first five bytes
differ never reaches extraction in the pipeline (the `load_files` filter
admits only files passing `is_cachecontrol_v4`). -/
theorem claim6_signature_gate :
    (∀ bs : List Nat, (is_cachecontrol_v4 (some bs) = true ↔ bs.take 5 = ccSig))
  ∧ is_cachecontrol_v4 none = false
  ∧ (∀ bs : List Nat, bs.take 5 ≠ ccSig → process_record (some bs) = none) := by
  refine ⟨?_, rfl, ?_⟩
  · intro bs
    simp [is_cachecontrol_v4]
  · intro bs h
    have hf : is_cachecontrol_v4 (some bs) = false := by
      simp [is_cachecontrol_v4, h]
    simp [process_record, hf]

/-- Witness for C6: a wrong 5th signature byte stops the pipeline. -/
theorem claim6_witness : process_record (some (strBytes "cc=4XBODY")) = none :=
  claim6_signature_gate.2.2 (strBytes "cc=4XBODY") (by decide)

/-- A cache record file: directory segments of its path relative to the
scanned root, and its basename. -/
structure CacheFile where
  dirs : List String
  base : String

/-- `file.name` — the basename, as used by `extract_file`. -/
def fileName (f : CacheFile) : String := f.base

/-- The record's relative path, joined with the separator. -/
def relPath (sep : String) (f : CacheFile) : String :=
  String.intercalate sep (f.dirs ++ [f.base])

/-- The code's fallback base name:
`default_name = file.name.replace(os.sep, "-")`. -/
def default_name (sep : String) (f : CacheFile) : String :=
  pyReplace (fileName f) sep "-"

/-- Spec-side (C9's wording): base name derived from the record's
*relative path* with separators normalized to `-`. -/
def spec_base_name (sep : String) (f : CacheFile) : String :=
  pyReplace (relPath sep f) sep "-"

/-- C9 evaluated at the failing input: two records named `record` in
different subdirectories `a/` and `b/` receive the *same* fallback base
name (the code uses only the basename, on which the separator
replacement is a no-op), while the claim's relative-path derivation
would keep them distinct. -/
theorem claim9_basename_not_namespaced :
    default_name "/" ⟨["a"], "record"⟩ = "record" ∧
    default_name "/" ⟨["b"], "record"⟩ = "record" ∧
    spec_base_name "/" ⟨["a"], "record"⟩ = "a-record" ∧
    spec_base_name "/" ⟨["b"], "record"⟩ = "b-record" ∧
    default_name "/" ⟨["a"], "record"⟩ = default_name "/" ⟨["b"], "record"⟩ ∧
    spec_base_name "/" ⟨["a"], "record"⟩ ≠ spec_base_name "/" ⟨["b"], "record"⟩ := by decide

end PipCache
